import Mathlib

/-!
Shallow embedding of `src/roll20/utils/inner_sea_calendar.py`.

The Python source performs its date arithmetic in IEEE double precision with
the constant `yearLength = 365 + 1/8 = 365.125`, which is an exact binary
float (2921/8).  Every float appearing in the date functions is therefore an
exact multiple of 1/8 (and in the moon functions a multiple of 1/2), and the
IEEE operations on them are exact throughout the spec domain, so the
embedding scales all quantities by 8 (resp. 2) and works in exact natural
number arithmetic.  Python `int(x)` truncates toward zero, which on the
nonnegative spec domain (EpochDay >= 1, year >= 1, per spec section 3) is
floor, i.e. Nat division.  Python list indexing `cal[month]` raises
IndexError past the end; the embedding models those code paths with
`Option`, returning `none` where the Python would raise.
-/

def MONTH_DAYS : List Nat := [31, 28, 31, 30, 31, 30, 31, 31, 30, 31, 30, 31]

def LEAP_DAYS : List Nat := [31, 29, 31, 30, 31, 30, 31, 31, 30, 31, 30, 31]

/-- `YEAR_LENGTH = sum(MONTH_DAYS) = 365` in the source. -/
def YEAR_LENGTH : Nat := MONTH_DAYS.sum

def WEEK : List String :=
  ["Moonday", "Toilday", "Wealday", "Oathday", "Fireday", "Starday", "Sunday"]

def MONTH : List String :=
  ["Abadius", "Calistril", "Pharast", "Gozren", "Desnus", "Sarenith",
   "Erastus", "Arodus", "Rova", "Lamashan", "Neth", "Kuthona"]

def MOON_PHASES : List String :=
  ["Full Moon", "Waning Gibbous", "Third Quarter", "Waning Crescent",
   "New Moon", "Waxing Crescent", "First Quarter", "Waxing Gibbous"]

def PHASE_LENGTH : List Nat := [3, 4, 4, 4, 2, 4, 4, 4]

/-- Python `getYear(epocDay) = int(math.ceil(epocDay / 365.125))`.
Scaled by 8: the exact value of `epocDay / 365.125` is `8*epocDay / 2921`,
and its ceiling over the naturals is `(8*epocDay + 2920) / 2921`. -/
def getYear (epocDay : Nat) : Nat :=
  (8 * epocDay + 2920) / 2921

/-- Python `getDayInYear(epocDay) = int(epocDay - (year-1)*365.125) + 1`
with `year = getYear(epocDay)`.  Scaled by 8 the truncated difference is
`(8*epocDay - 2921*(year-1)) / 8` (nonnegative for `epocDay >= 1`). -/
def getDayInYear (epocDay : Nat) : Nat :=
  let year := getYear epocDay
  (8 * epocDay - 2921 * (year - 1)) / 8 + 1

/-- The subtraction loop shared (textually duplicated in the source) by
`getMonthInYear` and `getDayInMonth`:
`while dayInYear > cal[month]: dayInYear -= cal[month]; month += 1`.
Returns the final `(month, dayInYear)` pair, or `none` where the Python
loop would index past the end of the table (IndexError). -/
def monthWalk : List Nat → Nat → Nat → Option (Nat × Nat)
  | [], _, _ => none
  | c :: cs, d, m => if c < d then monthWalk cs (d - c) (m + 1) else some (m, d)

/-- Python `getMonthInYear(epocDay)`: pick the leap table when
`getYear(epocDay) % 8 == 0`, walk the table, return `month + 1`. -/
def getMonthInYear (epocDay : Nat) : Option Nat :=
  let cal := if getYear epocDay % 8 = 0 then LEAP_DAYS else MONTH_DAYS
  (monthWalk cal (getDayInYear epocDay) 0).map fun p => p.1 + 1

/-- Python `getDayInMonth(epocDay)`: same loop, returns the remaining
`dayInYear`. -/
def getDayInMonth (epocDay : Nat) : Option Nat :=
  let cal := if getYear epocDay % 8 = 0 then LEAP_DAYS else MONTH_DAYS
  (monthWalk cal (getDayInYear epocDay) 0).map fun p => p.2

/-- Python `getEpocDay(day, month, year)`:
`int(365.125*(year-1) + sum(cal[:month-1]) + day)`.  Scaled by 8 the value
inside `int` is `(2921*(year-1) + 8*(sum + day)) / 8`; Python list slicing
`cal[:month-1]` is `List.take (month-1)` on the Nat domain `month >= 1`
of the spec. -/
def getEpocDay (day month year : Nat) : Nat :=
  let cal := if year % 8 = 0 then LEAP_DAYS else MONTH_DAYS
  (2921 * (year - 1) + 8 * ((cal.take (month - 1)).sum + day)) / 8

/-- Python `getEpocDayOfWeek(epocDay) = (epocDay - 1) % len(WEEK) + 1`. -/
def getEpocDayOfWeek (epocDay : Nat) : Nat :=
  (epocDay - 1) % WEEK.length + 1

/-- Python `getDayOfWeek(day, month, year)`. -/
def getDayOfWeek (day month year : Nat) : Nat :=
  getEpocDayOfWeek (getEpocDay day month year)

/-- The loop of `getMoonPhase`:
`while moonDay > 0: moonDay -= PHASE_LENGTH[phase]; if moonDay > 0: phase += 1`.
Returns the final phase index, or `none` where the Python loop would
index past the end of the table. -/
def phaseWalk : List Nat → Nat → Nat → Option Nat
  | _, 0, p => some p
  | [], _ + 1, _ => none
  | l :: ls, d + 1, p =>
      let m := d + 1 - l
      if 0 < m then phaseWalk ls m (p + 1) else some p

/-- Python `getMoonPhase(day, month, year)` with `MOON_PERIOD = 29.5`:
`moonDay = epocDay - int(29.5 * int(epocDay / 29.5))`.  Scaled by 2:
`int(epocDay / 29.5) = 2*epocDay / 59` and
`int(29.5 * q) = 59*q / 2`, all exact in double precision on the spec
domain. -/
def getMoonPhase (day month year : Nat) : Option String := do
  let epocDay := getEpocDay day month year
  let moonDay := epocDay - 59 * (2 * epocDay / 59) / 2
  let phase ← phaseWalk PHASE_LENGTH moonDay 0
  MOON_PHASES.get? phase

/-- One iteration of the cell loop of `calendar`, producing the HTML for
epoch day `today`; `none` where `getDayInMonth` would raise. -/
def dayCell (epocStartDay today : Nat) : Option String := do
  let mid ← if today < epocStartDay then some "<td></td>\n"
    else do
      let d ← getDayInMonth today
      some ("<td>" ++ toString d ++ "</td>\n")
  some ((if getEpocDayOfWeek today = 1 then "<tr>\n" else "") ++ mid ++
        (if getEpocDayOfWeek today = 7 then "</tr>\n" else ""))

/-- Python `calendar(month, year)`: month heading, table header row of the
seven weekday names, then one cell per day from the Moonday on or before
the first of the month up to the last day of the month. -/
def calendar (month year : Nat) : Option String := do
  let cal := if year % 8 = 0 then LEAP_DAYS else MONTH_DAYS
  let epocStartDay := getEpocDay 1 month year
  let lastDay ← cal.get? (month - 1)
  let epocEndDay := getEpocDay lastDay month year
  let monthName ← MONTH.get? (month - 1)
  let headerHtml := "<h2>" ++ monthName ++ "</h2>\n" ++ "<table>\n" ++
    "<tr>\n" ++ String.join (WEEK.map fun n => "<th>" ++ n ++ "</th>\n") ++
    "</tr>\n"
  let firstCell := epocStartDay + 1 - getEpocDayOfWeek epocStartDay
  let cells ← (List.range' firstCell (epocEndDay + 1 - firstCell)).mapM
    (dayCell epocStartDay)
  some (headerHtml ++ String.join cells ++ "</table>")
/-! ## Helper lemmas -/

lemma getYear_le (e : Nat) : 2921 * getYear e ≤ 8 * e + 2920 := by
  unfold getYear; omega

lemma le_getYear (e : Nat) : 8 * e ≤ 2921 * getYear e := by
  unfold getYear; omega

lemma one_le_getYear (e : Nat) (he : 1 ≤ e) : 1 ≤ getYear e := by
  unfold getYear; omega

lemma mul_2921_mod_8 (x : Nat) : 2921 * x % 8 = x % 8 := by
  conv_lhs => rw [Nat.mul_mod]
  norm_num

lemma getYear_add (y t : Nat) (hy : 1 ≤ y) (ht : 1 ≤ t)
    (h : 8 * t ≤ 2921 + (y - 1) % 8) :
    getYear (2921 * (y - 1) / 8 + t) = y := by
  have hmod := mul_2921_mod_8 (y - 1)
  unfold getYear; omega

lemma getDayInYear_add (y t : Nat) (hy : 1 ≤ y) (ht : 1 ≤ t)
    (h : 8 * t ≤ 2921 + (y - 1) % 8) (h8 : (y - 1) % 8 ≠ 0) :
    getDayInYear (2921 * (y - 1) / 8 + t) = t := by
  have hr : getDayInYear (2921 * (y - 1) / 8 + t) =
      (8 * (2921 * (y - 1) / 8 + t) -
        2921 * (getYear (2921 * (y - 1) / 8 + t) - 1)) / 8 + 1 := rfl
  rw [hr, getYear_add y t hy ht h]
  have hmod := mul_2921_mod_8 (y - 1)
  omega

lemma monthWalk_take :
    ∀ (cal : List Nat) (i d c p : Nat), cal.get? i = some c → 1 ≤ d →
      d ≤ c → monthWalk cal ((cal.take i).sum + d) p = some (p + i, d)
  | [], i, _, _, _, hc, _, _ => by simp at hc
  | a :: l, 0, d, c, p, hc, hd, hdc => by
      simp at hc
      subst hc
      simp [monthWalk, Nat.not_lt.mpr hdc]
  | a :: l, i + 1, d, c, p, hc, hd, hdc => by
      simp only [List.get?] at hc
      have ih := monthWalk_take l i d c (p + 1) hc hd hdc
      simp only [List.take, List.sum_cons, monthWalk]
      rw [if_pos (show a < a + (l.take i).sum + d by omega)]
      have harg : a + (l.take i).sum + d - a = (l.take i).sum + d := by omega
      rw [harg, ih]
      have hpi : p + 1 + i = p + (i + 1) := by omega
      rw [hpi]

lemma monthWalk_sound :
    ∀ (l : List Nat) (t p m d : Nat), monthWalk l t p = some (m, d) →
      p ≤ m ∧ ∃ c, l.get? (m - p) = some c ∧ d ≤ c ∧ (1 ≤ t → 1 ≤ d)
  | [], t, p, m, d, h => by simp [monthWalk] at h
  | c :: cs, t, p, m, d, h => by
      by_cases hlt : c < t
      · simp only [monthWalk, if_pos hlt] at h
        obtain ⟨hpm, c', hget, hdc, hpos⟩ := monthWalk_sound cs (t - c) (p + 1) m d h
        refine ⟨by omega, c', ?_, hdc, fun _ => hpos (by omega)⟩
        have : m - p = (m - (p + 1)) + 1 := by omega
        rw [this]
        simpa using hget
      · simp only [monthWalk, if_neg hlt] at h
        obtain ⟨hm, hd⟩ := Prod.mk.injEq .. ▸ Option.some.injEq .. ▸ h
        refine ⟨by omega, c, ?_, by omega, by omega⟩
        simp [← hm]

lemma one_le_getDayInYear (e : Nat) : 1 ≤ getDayInYear e := by
  have : getDayInYear e = (8 * e - 2921 * (getYear e - 1)) / 8 + 1 := rfl
  omega

lemma month_get : ∀ i < 12, MONTH_DAYS.get? i = some (MONTH_DAYS.getD i 0) := by
  decide

lemma leap_get : ∀ i < 12, LEAP_DAYS.get? i = some (LEAP_DAYS.getD i 0) := by
  decide

lemma month_take_le :
    ∀ i < 12, (MONTH_DAYS.take i).sum + MONTH_DAYS.getD i 0 ≤ MONTH_DAYS.sum := by
  decide

lemma leap_take_le :
    ∀ i < 12, (LEAP_DAYS.take i).sum + LEAP_DAYS.getD i 0 ≤ LEAP_DAYS.sum := by
  decide

lemma getEpocDay_split (d m y : Nat) :
    getEpocDay d m y = 2921 * (y - 1) / 8 +
      (((if y % 8 = 0 then LEAP_DAYS else MONTH_DAYS).take (m - 1)).sum + d) := by
  show (2921 * (y - 1) +
      8 * (((if y % 8 = 0 then LEAP_DAYS else MONTH_DAYS).take (m - 1)).sum + d)) / 8 = _
  omega

/-! ## Claim theorems -/

/-- C3: `getEpocDay(1, 1, 1) = 1`: the date day 1, month 1, year 1 maps to
epoch day 1. -/
theorem getEpocDay_base : getEpocDay 1 1 1 = 1 := by decide

/-- C7: `getYear` is monotone nondecreasing on epoch days. -/
theorem getYear_mono (a b : Nat) (_h1 : 1 ≤ a) (h : a ≤ b) :
    getYear a ≤ getYear b := by
  unfold getYear; omega

theorem getYear_mono_witness : getYear 100 ≤ getYear 500 :=
  getYear_mono 100 500 (by decide) (by decide)

/-- C5: for every epoch day `e >= 1`, `getEpocDayOfWeek e = (e - 1) % 7 + 1`,
the result lies in `1..7`, the function has period 7, and
`getEpocDayOfWeek 1 = 1`, `getEpocDayOfWeek 8 = 1`. -/
theorem getEpocDayOfWeek_spec (e : Nat) (he : 1 ≤ e) :
    (getEpocDayOfWeek e = (e - 1) % 7 + 1 ∧
     1 ≤ getEpocDayOfWeek e ∧ getEpocDayOfWeek e ≤ 7 ∧
     getEpocDayOfWeek (e + 7) = getEpocDayOfWeek e) ∧
    getEpocDayOfWeek 1 = 1 ∧ getEpocDayOfWeek 8 = 1 := by
  unfold getEpocDayOfWeek
  simp only [show WEEK.length = 7 from rfl, true_and, and_true]
  omega

theorem getEpocDayOfWeek_spec_witness :
    (getEpocDayOfWeek 10 = (10 - 1) % 7 + 1 ∧
     1 ≤ getEpocDayOfWeek 10 ∧ getEpocDayOfWeek 10 ≤ 7 ∧
     getEpocDayOfWeek (10 + 7) = getEpocDayOfWeek 10) ∧
    getEpocDayOfWeek 1 = 1 ∧ getEpocDayOfWeek 8 = 1 :=
  getEpocDayOfWeek_spec 10 (by decide)

/-- C2 counterexample: the claimed upper bound `getDayInYear e <= 365`
(365.125 rounded) fails at epoch day 365, where the function returns 366. -/
theorem getDayInYear_ub_cex : ¬ (getDayInYear 365 ≤ 365) := by decide

/-- C2 amended: for every epoch day `e >= 1`, `getDayInYear e` lies in
`[1, 366]`, 366 being the year length 365.125 rounded up. -/
theorem getDayInYear_bounds (e : Nat) (he : 1 ≤ e) :
    1 ≤ getDayInYear e ∧ getDayInYear e ≤ 366 := by
  have hr : getDayInYear e =
      (8 * e - 2921 * ((8 * e + 2920) / 2921 - 1)) / 8 + 1 := rfl
  omega

theorem getDayInYear_bounds_witness :
    1 ≤ getDayInYear 200 ∧ getDayInYear 200 ≤ 366 :=
  getDayInYear_bounds 200 (by decide)

/-- C4: in a leap year (`y % 8 = 0`) month 2 spans 29 days, measured as
`getEpocDay 1 3 y - getEpocDay 1 2 y`; in any other year it spans 28. -/
theorem month_two_length (y : Nat) (_hy : 1 ≤ y) :
    (y % 8 = 0 → getEpocDay 1 3 y - getEpocDay 1 2 y = 29) ∧
    (y % 8 ≠ 0 → getEpocDay 1 3 y - getEpocDay 1 2 y = 28) := by
  constructor <;> intro h0
  · rw [getEpocDay_split 1 3 y, getEpocDay_split 1 2 y, if_pos h0]
    norm_num [show (LEAP_DAYS.take 2).sum = 60 from rfl,
      show (LEAP_DAYS.take 1).sum = 31 from rfl]
    omega
  · rw [getEpocDay_split 1 3 y, getEpocDay_split 1 2 y, if_neg h0]
    norm_num [show (MONTH_DAYS.take 2).sum = 59 from rfl,
      show (MONTH_DAYS.take 1).sum = 31 from rfl]
    omega

theorem month_two_length_witness :
    getEpocDay 1 3 8 - getEpocDay 1 2 8 = 29 ∧
    getEpocDay 1 3 9 - getEpocDay 1 2 9 = 28 :=
  ⟨(month_two_length 8 (by decide)).1 (by decide),
   (month_two_length 9 (by decide)).2 (by decide)⟩

/-- C6: `getYear e` is exactly the ceiling of `e / (365 + 1/8)` (the
spec formula, stated over the exact rationals), and is at least 1 for
`e >= 1`. -/
theorem getYear_ceil (e : Nat) (he : 1 ≤ e) :
    (getYear e : ℤ) = ⌈(e : ℚ) / (365 + 1 / 8)⌉ ∧ 1 ≤ getYear e := by
  have h1 : 2921 * getYear e ≤ 8 * e + 2920 := getYear_le e
  have h2 : 8 * e ≤ 2921 * getYear e := le_getYear e
  have h3 : 1 ≤ getYear e := one_le_getYear e he
  refine ⟨?_, h3⟩
  have hq1 : (2921 : ℚ) * (getYear e : ℚ) ≤ 8 * (e : ℚ) + 2920 := by
    exact_mod_cast h1
  have hq2 : (8 : ℚ) * (e : ℚ) ≤ 2921 * (getYear e : ℚ) := by
    exact_mod_cast h2
  symm
  rw [show (365 + 1 / 8 : ℚ) = 2921 / 8 by norm_num, div_div_eq_mul_div,
    Int.ceil_eq_iff]
  constructor
  · rw [lt_div_iff (by norm_num : (0 : ℚ) < 2921)]
    push_cast
    linarith
  · rw [div_le_iff (by norm_num : (0 : ℚ) < 2921)]
    push_cast
    linarith

theorem getYear_ceil_witness :
    (getYear 400 : ℤ) = ⌈(400 : ℚ) / (365 + 1 / 8)⌉ ∧ 1 ≤ getYear 400 :=
  getYear_ceil 400 (by decide)

/-- C1 counterexample: the round-trip fails at the valid date
day 1, month 1, year 1: `getEpocDay 1 1 1 = 1` but
`getDayInMonth 1 = some 2`, not `some 1`. -/
theorem roundTrip_cex :
    ¬ (getMonthInYear (getEpocDay 1 1 1) = some 1 ∧
       getDayInMonth (getEpocDay 1 1 1) = some 1) := by
  decide

/-- C1 amended: for every valid date whose year is not congruent to 1
modulo 8 (years congruent to 1 modulo 8, such as year 1, shift the day by
one through the floating truncation in `getDayInYear`), with
`1 <= month <= 12` and `1 <= day <= ` the length of that month in the table
selected by `year % 8 == 0`, the round-trip holds:
`getMonthInYear (getEpocDay d m y) = some m` and
`getDayInMonth (getEpocDay d m y) = some d`. -/
theorem roundTrip (d m y : Nat) (hy : 1 ≤ y) (hy8 : y % 8 ≠ 1)
    (hm1 : 1 ≤ m) (hm : m ≤ 12) (hd : 1 ≤ d)
    (hdc : d ≤ (if y % 8 = 0 then LEAP_DAYS else MONTH_DAYS).getD (m - 1) 0) :
    getMonthInYear (getEpocDay d m y) = some m ∧
      getDayInMonth (getEpocDay d m y) = some d := by
  set cal := if y % 8 = 0 then LEAP_DAYS else MONTH_DAYS with hcal
  have hget : cal.get? (m - 1) = some (cal.getD (m - 1) 0) := by
    rw [hcal]
    split
    · exact leap_get (m - 1) (by omega)
    · exact month_get (m - 1) (by omega)
  have hsum : (cal.take (m - 1)).sum + cal.getD (m - 1) 0 ≤ cal.sum := by
    rw [hcal]
    split
    · exact leap_take_le (m - 1) (by omega)
    · exact month_take_le (m - 1) (by omega)
  have hcs : cal.sum = 365 ∨ (cal.sum = 366 ∧ (y - 1) % 8 = 7) := by
    rw [hcal]
    by_cases h0 : y % 8 = 0
    · right
      rw [if_pos h0]
      exact ⟨rfl, by omega⟩
    · left
      rw [if_neg h0]
      rfl
  have ht2 : 8 * ((cal.take (m - 1)).sum + d) ≤ 2921 + (y - 1) % 8 := by
    omega
  have hyear : getYear (getEpocDay d m y) = y := by
    rw [getEpocDay_split, ← hcal]
    exact getYear_add y _ hy (by omega) ht2
  have hday : getDayInYear (getEpocDay d m y) = (cal.take (m - 1)).sum + d := by
    rw [getEpocDay_split, ← hcal]
    exact getDayInYear_add y _ hy (by omega) ht2 (by omega)
  have hwalk : monthWalk cal ((cal.take (m - 1)).sum + d) 0 =
      some (0 + (m - 1), d) :=
    monthWalk_take cal (m - 1) d _ 0 hget hd hdc
  constructor
  · show (monthWalk (if getYear (getEpocDay d m y) % 8 = 0 then LEAP_DAYS
        else MONTH_DAYS) (getDayInYear (getEpocDay d m y)) 0).map
        (fun p => p.1 + 1) = some m
    rw [hyear, ← hcal, hday, hwalk]
    simp only [Option.map_some']
    congr 1
    omega
  · show (monthWalk (if getYear (getEpocDay d m y) % 8 = 0 then LEAP_DAYS
        else MONTH_DAYS) (getDayInYear (getEpocDay d m y)) 0).map
        (fun p => p.2) = some d
    rw [hyear, ← hcal, hday, hwalk]
    rfl

theorem roundTrip_witness :
    getMonthInYear (getEpocDay 5 2 2) = some 2 ∧
      getDayInMonth (getEpocDay 5 2 2) = some 5 :=
  roundTrip 5 2 2 (by decide) (by decide) (by decide) (by decide) (by decide)
    (by decide)

/-- C10: whenever the month walk of `getMonthInYear` and `getDayInMonth`
stays inside the 12-entry table (both functions return a value), the two
functions use the same table, the month is in `1..12`, and the day
satisfies `1 <= day <= table[month - 1]`. -/
theorem monthDay_consistent (e mo dd : Nat) (_he : 1 ≤ e)
    (hmo : getMonthInYear e = some mo) (hdd : getDayInMonth e = some dd) :
    1 ≤ mo ∧ mo ≤ 12 ∧ 1 ≤ dd ∧
      ∃ c, (if getYear e % 8 = 0 then LEAP_DAYS else MONTH_DAYS).get?
          (mo - 1) = some c ∧ dd ≤ c := by
  set cal := if getYear e % 8 = 0 then LEAP_DAYS else MONTH_DAYS with hcal
  have hlen : cal.length = 12 := by
    rw [hcal]; split <;> rfl
  have hmo' : (monthWalk cal (getDayInYear e) 0).map (fun p => p.1 + 1) =
      some mo := hmo
  have hdd' : (monthWalk cal (getDayInYear e) 0).map (fun p => p.2) =
      some dd := hdd
  obtain ⟨⟨m1, d1⟩, hw1, hmap1⟩ := Option.map_eq_some'.mp hmo'
  obtain ⟨⟨m2, d2⟩, hw2, hmap2⟩ := Option.map_eq_some'.mp hdd'
  rw [hw1] at hw2
  obtain ⟨hm12, hd12⟩ := Prod.mk.injEq .. ▸ Option.some.injEq .. ▸ hw2
  simp only at hmap1 hmap2
  obtain ⟨hple, c, hget, hdc, hdpos⟩ :=
    monthWalk_sound cal (getDayInYear e) 0 m1 d1 hw1
  have hm1lt : m1 < 12 := by
    have := (List.get?_eq_some.mp (by simpa using hget)).1
    omega
  have hdd1 : dd = d1 := by omega
  refine ⟨by omega, by omega, ?_, c, ?_, by omega⟩
  · have := hdpos (one_le_getDayInYear e)
    omega
  · have hsub : mo - 1 = m1 := by omega
    rw [hsub]
    simpa using hget

theorem monthDay_consistent_witness :
    1 ≤ 2 ∧ 2 ≤ 12 ∧ 1 ≤ 10 ∧
      ∃ c, (if getYear 40 % 8 = 0 then LEAP_DAYS else MONTH_DAYS).get?
          (2 - 1) = some c ∧ 10 ≤ c :=
  monthDay_consistent 40 2 10 (by decide) (by decide) (by decide)

lemma phaseWalk_bounded :
    ∀ x < 30, (phaseWalk PHASE_LENGTH x 0).getD 8 < 8 ∧
      (phaseWalk PHASE_LENGTH x 0).isSome = true := by
  decide

/-- C9: for every date whose epoch day is at least 1, `getMoonPhase`
terminates with one of the 8 strings of `MOON_PHASES` (the reduced moon
day is at most 29 and the phase index never leaves the table), and when
the reduced moon day is 0 the loop body never runs and the result is
"Full Moon". -/
theorem getMoonPhase_total (d m y : Nat) (_h : 1 ≤ getEpocDay d m y) :
    ∃ s, getMoonPhase d m y = some s ∧ s ∈ MOON_PHASES ∧
      (getEpocDay d m y - 59 * (2 * getEpocDay d m y / 59) / 2 = 0 →
        s = "Full Moon") := by
  set e := getEpocDay d m y with hee
  set md := e - 59 * (2 * e / 59) / 2 with hmd
  have hle : md < 30 := by omega
  obtain ⟨hlt8, hsome⟩ := phaseWalk_bounded md hle
  obtain ⟨p, hp⟩ := Option.isSome_iff_exists.mp hsome
  have hp8 : p < 8 := by
    rw [hp] at hlt8
    simpa using hlt8
  obtain ⟨s, hs⟩ : ∃ s, MOON_PHASES.get? p = some s := by
    interval_cases p <;> exact ⟨_, rfl⟩
  refine ⟨s, ?_, List.get?_mem hs, ?_⟩
  · show (phaseWalk PHASE_LENGTH md 0).bind (fun ph => MOON_PHASES.get? ph) =
      some s
    rw [hp]
    simpa using hs
  · intro h0
    rw [h0] at hp
    have hp0 : p = 0 := by
      have h00 : phaseWalk PHASE_LENGTH 0 0 = some 0 := rfl
      exact (Option.some_inj.mp (h00.symm.trans hp)).symm
    rw [hp0] at hs
    have : s = "Full Moon" := by
      simpa [MOON_PHASES] using hs.symm
    exact this

theorem getMoonPhase_total_witness :
    ∃ s, getMoonPhase 1 1 1 = some s ∧ s ∈ MOON_PHASES ∧
      (getEpocDay 1 1 1 - 59 * (2 * getEpocDay 1 1 1 / 59) / 2 = 0 →
        s = "Full Moon") :=
  getMoonPhase_total 1 1 1 (by decide)

set_option maxRecDepth 100000 in
/-- C8: `calendar 1 1` returns an HTML string containing "<table>" followed
by the header row listing the 7 weekday names in order (Moonday, Toilday,
Wealday, Oathday, Fireday, Starday, Sunday, each in th tags), shown here by
computing the complete output. -/
theorem calendar_header :
    calendar 1 1 = some ("<h2>Abadius</h2>\n" ++ "<table>\n" ++
      ("<tr>\n" ++ "<th>Moonday</th>\n" ++ "<th>Toilday</th>\n" ++
       "<th>Wealday</th>\n" ++ "<th>Oathday</th>\n" ++ "<th>Fireday</th>\n" ++
       "<th>Starday</th>\n" ++ "<th>Sunday</th>\n" ++ "</tr>\n") ++
      ("<tr>\n<td>2</td>\n<td>3</td>\n<td>4</td>\n<td>5</td>\n<td>6</td>\n" ++
       "<td>7</td>\n<td>8</td>\n</tr>\n" ++
       "<tr>\n<td>9</td>\n<td>10</td>\n<td>11</td>\n<td>12</td>\n" ++
       "<td>13</td>\n<td>14</td>\n<td>15</td>\n</tr>\n" ++
       "<tr>\n<td>16</td>\n<td>17</td>\n<td>18</td>\n<td>19</td>\n" ++
       "<td>20</td>\n<td>21</td>\n<td>22</td>\n</tr>\n" ++
       "<tr>\n<td>23</td>\n<td>24</td>\n<td>25</td>\n<td>26</td>\n" ++
       "<td>27</td>\n<td>28</td>\n<td>29</td>\n</tr>\n" ++
       "<tr>\n<td>30</td>\n<td>31</td>\n<td>1</td>\n" ++ "</table>")) := by
  rfl
